import Mathlib

set_option maxRecDepth 8000

/-!
Verification development for the Farcaster Plinko voucher system.

The development shallowly embeds the core of the repository:
* `src/server/lib/plinko.ts` — the Plinko outcome generator (`PlinkoSimulator`)
  and the Redis-backed quota ledger (`RedisTicketManager`) with its in-memory
  fallback;
* `src/server/lib/crypto.ts` — voucher commitment construction and signing
  (`CryptoService.signVoucher`);
* `src/contracts/ClaimVault.sol` — the redemption validator (`redeem`) with
  EVM revert semantics (a revert rolls back every state write of the call);
* the `/api/drop` route handler — its storage effects on the drop-history
  audit table.

JavaScript numbers are modelled exactly where the code only ever produces
values representable without rounding concerns for the claims at issue:
integer hash states are `Int` with explicit 32-bit wrapping, and the values
returned by the pseudo-random generator are rationals (`ℚ`).  Machine
integers of the EVM are `Nat` (no arithmetic here approaches 2^256).
Cryptographic hashing is modelled by the packed byte string itself
(collision-freeness idealised), and ECDSA by a record pairing the signed
digest with the signer identity.
-/

/-! ## Outcome generator: `PlinkoSimulator` (src/server/lib/plinko.ts) -/

/-- JavaScript `ToInt32`: wrap an integer into the signed 32-bit range,
as performed by the bitwise operators `<<` and `&` in `createSeededRandom`. -/
def toInt32 (x : Int) : Int := (x + 2 ^ 31) % 2 ^ 32 - 2 ^ 31

/-- One step of the seed-hash loop of `createSeededRandom`:
`hash = ((hash << 5) - hash) + char; hash = hash & hash`. -/
def seedHashStep (h : Int) (c : Nat) : Int :=
  toInt32 (toInt32 (h * 32) - h + c)

/-- The seed hash computed by `createSeededRandom` over the seed string
(`charCodeAt` agrees with the Unicode code point on the one-code-unit
characters used here). -/
def seedHash (seed : String) : Int :=
  seed.toList.foldl (fun h ch => seedHashStep h ch.toNat) 0

/-- The LCG state update of the closure returned by `createSeededRandom`:
`hash = (hash * 9301 + 49297) % 233280`, where JavaScript `%` is the
truncated remainder (sign of the dividend), i.e. `Int.tmod`. -/
def nextHash (h : Int) : Int := Int.tmod (h * 9301 + 49297) 233280

/-- The mutable `hash` of `createSeededRandom seed` after `n` calls of the
closure: the seed hash advanced `n` times by the LCG. -/
def hashIter (seed : String) : Nat → Int
  | 0 => seedHash seed
  | n + 1 => nextHash (hashIter seed n)

/-- The `i`-th value returned by the closure of `createSeededRandom seed`
(the closure first advances the state, then returns `hash / 233280`). -/
def seededSample (seed : String) : Nat → ℚ :=
  fun i => ((hashIter seed (i + 1) : Int) : ℚ) / 233280

/-- Bounce direction recorded in the path. -/
inductive Direction
  | left
  | right
deriving DecidableEq, Repr

/-- One entry of `DropResult.path` (`PlinkoPath` in the source):
`x = currentX * PEG_SPACING`, `y = row * PEG_SPACING`, with `PEG_SPACING = 1`. -/
structure PathStep where
  x : ℚ
  y : ℚ
  direction : Direction
deriving DecidableEq, Repr

/-- Result of `PlinkoSimulator.simulateDrop`. -/
structure DropResult where
  path : List PathStep
  finalSlot : Int
  amountCents : Int
deriving DecidableEq, Repr

/-- `BOARD_WIDTH = 7` (number of slots at the bottom). -/
def BOARD_WIDTH : Int := 7

/-- `BOARD_HEIGHT = 8` (number of peg rows). -/
def BOARD_HEIGHT : Nat := 8

/-- A prize tier of `PRIZE_DISTRIBUTION`. -/
structure Tier where
  min : Int
  max : Int
  weight : ℚ
deriving DecidableEq, Repr

/-- The five prize tiers, in source order. -/
def PRIZE_DISTRIBUTION : List Tier :=
  [⟨1, 5, 40⟩, ⟨6, 15, 30⟩, ⟨16, 35, 20⟩, ⟨36, 65, 8⟩, ⟨66, 100, 2⟩]

/-- `reduce`-style total of the tier weights. -/
def totalWeight : ℚ := (PRIZE_DISTRIBUTION.map Tier.weight).sum

/-- The tier-selection walk of `calculatePrize`: accumulate weights in order
and return the first tier with `randomWeight <= currentWeight`. -/
def pickTier (tiers : List Tier) (acc : ℚ) (w : ℚ) : Option Tier :=
  match tiers with
  | [] => none
  | t :: ts => if w ≤ acc + t.weight then some t else pickTier ts (acc + t.weight) w

/-- `PlinkoSimulator.calculatePrize slot rng`, where the random source is the
sample stream `rng` and `k` is the index of the next sample the closure would
return (the source makes exactly two `rng()` calls: the tier draw and the
in-tier amount draw).  The `slot` argument is accepted and, as in the source,
never used. -/
def calculatePrize (slot : Int) (rng : Nat → ℚ) (k : Nat) : Int :=
  let randomWeight := rng k * totalWeight
  match pickTier PRIZE_DISTRIBUTION 0 randomWeight with
  | some t => ⌊rng (k + 1) * ((t.max - t.min + 1 : Int) : ℚ)⌋ + t.min
  | none => 1

/-- The descent loop of `simulateDrop`: starting at row `row` with `rem` rows
to go and current column `x`, produce the final column and the recorded path.
Each row consumes exactly one sample (`rng row`); the move is clamped as in
the source's `if/else if`. -/
def descentAux (rng : Nat → ℚ) (row : Nat) (rem : Nat) (x : Int) :
    Int × List PathStep :=
  match rem with
  | 0 => (x, [])
  | rem + 1 =>
    let d : Direction := if rng row < 1 / 2 then .left else .right
    let x' : Int :=
      if d = .left then (if 0 < x then x - 1 else x)
      else (if x < BOARD_WIDTH - 1 then x + 1 else x)
    let out := descentAux rng (row + 1) rem x'
    (out.1, ⟨(x' : ℚ), (row : ℚ), d⟩ :: out.2)

/-- `simulateDrop` run against an explicit sample stream: samples `0..7` drive
the eight-row descent, samples `8` and `9` the prize draw.  The starting
column is `Math.floor(BOARD_WIDTH / 2) = 3`. -/
def simulateDropWith (rng : Nat → ℚ) : DropResult :=
  let out := descentAux rng 0 BOARD_HEIGHT 3
  { path := out.2
    finalSlot := out.1
    amountCents := calculatePrize out.1 rng BOARD_HEIGHT }

/-- `PlinkoSimulator.simulateDrop seed`: with a seed, the closure of
`createSeededRandom` drives every sample; without one, `Math.random` does —
modelled by the ambient stream `ambient`. -/
def simulateDrop (seed : Option String) (ambient : Nat → ℚ) : DropResult :=
  match seed with
  | some s => simulateDropWith (seededSample s)
  | none => simulateDropWith ambient

/-- `PlinkoSimulator.validateDropResult`. -/
def validateDropResult (r : DropResult) : Prop :=
  1 ≤ r.amountCents ∧ r.amountCents ≤ 100 ∧
    0 ≤ r.finalSlot ∧ r.finalSlot < BOARD_WIDTH ∧ r.path.length = BOARD_HEIGHT

instance (r : DropResult) : Decidable (validateDropResult r) := by
  unfold validateDropResult; infer_instance

/-- An arbitrary ambient random stream, used to instantiate closed statements. -/
def zeroStream : Nat → ℚ := fun _ => 0

/-! ## Quota ledger: `RedisTicketManager` (src/server/lib/plinko.ts)

The manager keys records by `tickets:` + lowercased wallet; the two
implementations below are the per-key transition functions of
`consumeTicket` (the Redis Lua script) and `consumeTicketFromMemory`.
The Redis clock counts seconds, the in-memory clock milliseconds, so the
24-hour window is `86400` in the first model and `86400000` in the second.
Redis TTL expiry is modelled lazily: a key whose expiry has passed
(`now > expiry`) behaves as absent, exactly the condition the in-memory
fallback tests explicitly. -/

/-- A stored quota record: remaining tickets and window expiry. -/
structure TicketRecord where
  tickets : Int
  expiry : Int
deriving DecidableEq, Repr

/-- The per-principal store content: `none` when no record exists. -/
abbrev TicketStore := Option TicketRecord

/-- `RedisTicketManager.consumeTicket`'s Lua script, per key:
`GET` (absent once expired) — if absent, `SETEX key 86400 '2'` and succeed;
if positive, `DECR` (TTL preserved) and succeed; else fail without writing. -/
def consumeTicket (now : Int) (st : TicketStore) : Bool × TicketStore :=
  match st with
  | none => (true, some ⟨2, now + 86400⟩)
  | some r =>
    if now > r.expiry then (true, some ⟨2, now + 86400⟩)
    else if r.tickets > 0 then (true, some ⟨r.tickets - 1, r.expiry⟩)
    else (false, some r)

/-- `RedisTicketManager.consumeTicketFromMemory`, per key: if no record or
`Date.now() > expiry`, store `{tickets: 2, expiry: now + 86400000}` and
succeed; if positive, decrement in place and succeed; else fail. -/
def consumeTicketFromMemory (now : Int) (st : TicketStore) : Bool × TicketStore :=
  match st with
  | none => (true, some ⟨2, now + 86400000⟩)
  | some r =>
    if now > r.expiry then (true, some ⟨2, now + 86400000⟩)
    else if r.tickets > 0 then (true, some ⟨r.tickets - 1, r.expiry⟩)
    else (false, some r)

/-- The dispatch at the top of `consumeTicket`: when Redis is unreachable
(`redisAvailable = false`), the in-memory fallback handles the call. -/
def consumeTicketDispatch (redisAvailable : Bool) (now : Int) (st : TicketStore) :
    Bool × TicketStore :=
  if redisAvailable then consumeTicket now st else consumeTicketFromMemory now st

/-- The observable quota state at time `now`: no usable record (absent or
expired window), or an active record with its remaining count. -/
inductive QuotaView
  | stale
  | active (remaining : Int)
deriving DecidableEq, Repr

/-- Abstraction of a store at a given time to its observable quota state. -/
def quotaView (now : Int) (st : TicketStore) : QuotaView :=
  match st with
  | none => .stale
  | some r => if now > r.expiry then .stale else .active r.tickets

/-! ## Voucher issuer: `CryptoService.signVoucher` (src/server/lib/crypto.ts)
and redemption validator: `ClaimVault.redeem` (src/contracts/ClaimVault.sol)

Digests are modelled by their packed preimages (`keccak256` is injective in
the model), and an ECDSA signature by the pair of the digest that was signed
and the signer's address; `ecrecover` returns the embedded address exactly
when the digest matches, and address `0` otherwise (garbage recovery). -/

/-- Ethereum addresses (160-bit values; `0` is the zero address and the
`ecrecover` failure value). -/
abbrev EthAddress := Nat

/-- Big-endian fixed-width byte encoding of a machine integer, the encoding
`abi.encodePacked` / `solidityPacked` applies to each field. -/
def beBytes (width : Nat) (v : Nat) : List Nat :=
  (List.range width).map (fun i => v / 256 ^ (width - 1 - i) % 256)

/-- The Solidity elementary types appearing in the voucher commitment. -/
inductive SolType
  | uint256
  | address
  | bytes32
deriving DecidableEq, Repr

/-- Packed byte width of each type. -/
def SolType.width : SolType → Nat
  | .uint256 => 32
  | .address => 20
  | .bytes32 => 32

/-- `abi.encodePacked` / `ethers.solidityPacked`: the concatenation of the
fixed-width big-endian encodings, no padding between fields. -/
def solidityPacked (args : List (SolType × Nat)) : List Nat :=
  (args.map fun a => beBytes a.1.width a.2).flatten

/-- The commitment preimage the issuer hashes in `CryptoService.signVoucher`:
`solidityPackedKeccak256(["uint256","address","bytes32","uint256","address"],
[amountCents, recipient, nonce, expiry, contractAddress])`. -/
def messageHashTS (amountCents : Nat) (recipient : EthAddress) (nonce : Nat)
    (expiry : Nat) (contractAddress : EthAddress) : List Nat :=
  solidityPacked
    [(.uint256, amountCents), (.address, recipient), (.bytes32, nonce),
      (.uint256, expiry), (.address, contractAddress)]

/-- The commitment preimage the vault hashes in `ClaimVault.redeem`:
`keccak256(abi.encodePacked(amountCents, recipient, nonce, expiry,
address(this)))` with types `(uint256, address, bytes32, uint256, address)`. -/
def voucherHashSol (amountCents : Nat) (recipient : EthAddress) (nonce : Nat)
    (expiry : Nat) (vault : EthAddress) : List Nat :=
  solidityPacked
    [(.uint256, amountCents), (.address, recipient), (.bytes32, nonce),
      (.uint256, expiry), (.address, vault)]

/-- The EIP-191 header `"\x19Ethereum Signed Message:\n32"` prepended by both
`ethers.hashMessage` (on 32-byte input) and the vault's
`abi.encodePacked("\x19Ethereum Signed Message:\n32", voucherHash)`. -/
def ethSignedHeader : List Nat :=
  25 :: ("Ethereum Signed Message:" ++ "\n" ++ "32").toList.map Char.toNat

/-- The digest preimage actually signed/recovered: header plus message. -/
def ethSigned (message : List Nat) : List Nat := ethSignedHeader ++ message

/-- An ECDSA signature, idealised: the digest it signs plus the address of
the key that produced it (a 65-byte `(r,s,v)` signature in the source). -/
structure EcdsaSig where
  signedHash : List Nat
  signer : EthAddress
deriving DecidableEq, Repr

/-- `ecrecover hash sig`: the signer's address when `sig` signs exactly
`hash`, address `0` otherwise. -/
def ecrecover (hash : List Nat) (sig : EcdsaSig) : EthAddress :=
  if sig.signedHash = hash then sig.signer else 0

/-- `ethers.Wallet.signMessage(getBytes(messageHash))`: sign the EIP-191
digest of the message with the issuer's key. -/
def signMessage (issuer : EthAddress) (message : List Nat) : EcdsaSig :=
  ⟨ethSigned message, issuer⟩

/-- `CryptoService.signVoucher voucherData contractAddress`: hash the packed
voucher fields, then sign the prefixed digest. -/
def signVoucher (issuer : EthAddress) (amountCents : Nat) (recipient : EthAddress)
    (nonce : Nat) (expiry : Nat) (contractAddress : EthAddress) : EcdsaSig :=
  signMessage issuer (messageHashTS amountCents recipient nonce expiry contractAddress)

/-- The contract storage of `ClaimVault` (plus its own address and the USDC
balance it holds, the two pieces of chain context `redeem` reads). -/
structure VaultState where
  signer : EthAddress
  paused : Bool
  redeemed : List (List Nat)
  balance : Nat
  totalRedeemed : Nat
  totalVouchers : Nat
  vault : EthAddress
deriving DecidableEq, Repr

/-- The typed reverts `redeem` can raise (`Paused` models the
`whenNotPaused` modifier's revert). -/
inductive VaultError
  | InvalidSignature
  | VoucherExpired
  | AlreadyRedeemed
  | RecipientMismatch
  | InsufficientFunds
  | InvalidAmount
  | Paused
deriving DecidableEq, Repr

/-- The body of `ClaimVault.redeem`, check by check in source order;
`now` is `block.timestamp` and `sender` is `msg.sender`.  In the source the
consumed flag (`redeemed[voucherHash] = true`) is written before the balance
check; the flag write does not change the USDC balance, so the balance guard
reads the incoming balance, and an `error` result is a revert that rolls the
flag write back. -/
def redeemBody (st : VaultState) (now : Nat) (sender : EthAddress)
    (amountCents : Nat) (recipient : EthAddress) (nonce : Nat) (expiry : Nat)
    (signature : EcdsaSig) : Except VaultError VaultState :=
  if st.paused then .error .Paused
  else if now > expiry then .error .VoucherExpired
  else if recipient ≠ sender then .error .RecipientMismatch
  else if amountCents = 0 ∨ amountCents > 100 then .error .InvalidAmount
  else if voucherHashSol amountCents recipient nonce expiry st.vault ∈ st.redeemed then
    .error .AlreadyRedeemed
  else if ecrecover (ethSigned (voucherHashSol amountCents recipient nonce expiry st.vault))
      signature ≠ st.signer then
    .error .InvalidSignature
  else if st.balance < amountCents * 10000 then .error .InsufficientFunds
  else .ok { st with
    redeemed := voucherHashSol amountCents recipient nonce expiry st.vault :: st.redeemed
    balance := st.balance - amountCents * 10000
    totalRedeemed := st.totalRedeemed + amountCents * 10000
    totalVouchers := st.totalVouchers + 1 }

/-- `ClaimVault.redeem` as an EVM transaction: a revert rolls every write of
the call back, so an error leaves the caller-visible state unchanged. -/
def redeem (st : VaultState) (now : Nat) (sender : EthAddress)
    (amountCents : Nat) (recipient : EthAddress) (nonce : Nat) (expiry : Nat)
    (signature : EcdsaSig) : VaultState × Option VaultError :=
  match redeemBody st now sender amountCents recipient nonce expiry signature with
  | .ok st' => (st', none)
  | .error e => (st, some e)

/-- `ClaimVault.updateSigner` (owner-only): reverts on the zero address,
otherwise replaces the signer. -/
def updateSigner (st : VaultState) (newSigner : EthAddress) : VaultState :=
  if newSigner = 0 then st else { st with signer := newSigner }

/-- `ClaimVault.pause` (owner-only). -/
def pauseVault (st : VaultState) : VaultState := { st with paused := true }

/-- `ClaimVault.unpause` (owner-only). -/
def unpauseVault (st : VaultState) : VaultState := { st with paused := false }

/-- `ClaimVault.deposit`: reverts on zero amount, otherwise `transferFrom`
moves `amount` USDC into the vault. -/
def deposit (st : VaultState) (amount : Nat) : VaultState :=
  if amount = 0 then st else { st with balance := st.balance + amount }

/-- `ClaimVault.withdraw` (owner-only): reverts on zero amount or zero
recipient; a USDC `transfer` exceeding the balance reverts the call. -/
def withdraw (st : VaultState) (amount : Nat) (recipient : EthAddress) : VaultState :=
  if amount = 0 ∨ recipient = 0 ∨ st.balance < amount then st
  else { st with balance := st.balance - amount }

/-- `ClaimVault.emergencyWithdraw` (owner-only): drains the whole balance. -/
def emergencyWithdraw (st : VaultState) (recipient : EthAddress) : VaultState :=
  if recipient = 0 then st else { st with balance := 0 }

/-- One external call to the `ClaimVault` contract: every state-mutating
entry point of the source, with arbitrary arguments and chain context. -/
inductive VaultStep : VaultState → VaultState → Prop
  | redeem (st : VaultState) (now : Nat) (sender : EthAddress) (amountCents : Nat)
      (recipient : EthAddress) (nonce : Nat) (expiry : Nat) (sig : EcdsaSig) :
      VaultStep st (redeem st now sender amountCents recipient nonce expiry sig).1
  | updateSigner (st : VaultState) (newSigner : EthAddress) :
      VaultStep st (updateSigner st newSigner)
  | pause (st : VaultState) : VaultStep st (pauseVault st)
  | unpause (st : VaultState) : VaultStep st (unpauseVault st)
  | deposit (st : VaultState) (amount : Nat) : VaultStep st (deposit st amount)
  | withdraw (st : VaultState) (amount : Nat) (recipient : EthAddress) :
      VaultStep st (withdraw st amount recipient)
  | emergencyWithdraw (st : VaultState) (recipient : EthAddress) :
      VaultStep st (emergencyWithdraw st recipient)

/-! ## The `/api/drop` route handler (storage effects)

`registerRoutes`'s drop handler: consume a ticket, simulate, validate,
write a drop-history row with `voucherId: null`, and — when
`amountCents > 0` — sign and persist a voucher and write a second
drop-history row carrying the new voucher's id.  `storage.createDropHistory`
and `storage.createVoucher` are SQL inserts returning the new row; ids are
serial primary keys. -/

/-- A `drop_history` row as inserted by the handler (`pathData` is the
serialized path; the model keeps the path itself). -/
structure DropHistoryRow where
  id : Nat
  userId : Nat
  amountCents : Int
  pathData : List PathStep
  voucherId : Option Nat
deriving DecidableEq, Repr

/-- A `vouchers` row as inserted by the handler. -/
structure VoucherRow where
  id : Nat
  recipient : EthAddress
  amountCents : Int
  nonce : Nat
  expiry : Nat
  signature : EcdsaSig
deriving DecidableEq, Repr

/-- The slice of server storage the drop handler writes. -/
structure ServerState where
  vouchers : List VoucherRow
  dropHistory : List DropHistoryRow
  nextVoucherId : Nat
  nextHistoryId : Nat
deriving DecidableEq, Repr

/-- `storage.createDropHistory`: insert a new row under a fresh serial id. -/
def createDropHistory (st : ServerState) (userId : Nat) (amountCents : Int)
    (pathData : List PathStep) (voucherId : Option Nat) : ServerState × Nat :=
  ({ st with
      dropHistory :=
        st.dropHistory ++ [⟨st.nextHistoryId, userId, amountCents, pathData, voucherId⟩]
      nextHistoryId := st.nextHistoryId + 1 },
    st.nextHistoryId)

/-- `storage.createVoucher`: insert a new voucher row under a fresh id. -/
def createVoucher (st : ServerState) (recipient : EthAddress) (amountCents : Int)
    (nonce : Nat) (expiry : Nat) (signature : EcdsaSig) : ServerState × Nat :=
  ({ st with
      vouchers :=
        st.vouchers ++ [⟨st.nextVoucherId, recipient, amountCents, nonce, expiry, signature⟩]
      nextVoucherId := st.nextVoucherId + 1 },
    st.nextVoucherId)

/-- The handler's response, reduced to what it persists and returns. -/
inductive DropResponse
  | noTickets
  | invalidDrop
  | ok (voucherId : Option Nat)
deriving DecidableEq, Repr

/-- The `/api/drop` handler after authentication: `hasTicket` is the result
of `ticketManager.consumeTicket`, `r` the simulated drop, `nonce`/`now` the
generated nonce and clock, `issuer` the backend signer and `vaultAddr` the
configured `CLAIM_VAULT_ADDRESS`.  Expiry is 30 days out. -/
def handleDrop (st : ServerState) (userId : Nat) (wallet : EthAddress)
    (hasTicket : Bool) (r : DropResult) (nonce : Nat) (now : Nat)
    (issuer : EthAddress) (vaultAddr : EthAddress) : ServerState × DropResponse :=
  if !hasTicket then (st, .noTickets)
  else if ¬ validateDropResult r then (st, .invalidDrop)
  else
    let st1 := (createDropHistory st userId r.amountCents r.path none).1
    if r.amountCents > 0 then
      let expiry := now + 30 * 24 * 60 * 60
      let sig := signVoucher issuer r.amountCents.toNat wallet nonce expiry vaultAddr
      let v := createVoucher st1 wallet r.amountCents nonce expiry sig
      let st3 := (createDropHistory v.1 userId r.amountCents r.path (some v.2)).1
      (st3, .ok (some v.2))
    else (st1, .ok none)

/-! ## Supporting lemmas -/

/-- Characterization of a successful `redeem` body: every check passed and
the post-state is the source's update. -/
lemma redeemBody_eq_ok (st : VaultState) (now : Nat) (sender : EthAddress)
    (a : Nat) (r : EthAddress) (n : Nat) (e : Nat) (sig : EcdsaSig)
    (st' : VaultState) :
    redeemBody st now sender a r n e sig = .ok st' ↔
      st.paused = false ∧ now ≤ e ∧ r = sender ∧ 1 ≤ a ∧ a ≤ 100 ∧
      voucherHashSol a r n e st.vault ∉ st.redeemed ∧
      ecrecover (ethSigned (voucherHashSol a r n e st.vault)) sig = st.signer ∧
      a * 10000 ≤ st.balance ∧
      st' = { st with
        redeemed := voucherHashSol a r n e st.vault :: st.redeemed
        balance := st.balance - a * 10000
        totalRedeemed := st.totalRedeemed + a * 10000
        totalVouchers := st.totalVouchers + 1 } := by
  unfold redeemBody
  split_ifs with h1 h2 h3 h4 h5 h6 h7
  · simp_all
  · constructor
    · intro h; exact absurd h (by simp)
    · rintro ⟨-, hne, -⟩; omega
  · constructor
    · intro h; exact absurd h (by simp)
    · rintro ⟨-, -, hrs, -⟩; exact absurd hrs h3
  · constructor
    · intro h; exact absurd h (by simp)
    · rintro ⟨-, -, -, ha1, ha2, -⟩; omega
  · constructor
    · intro h; exact absurd h (by simp)
    · rintro ⟨-, -, -, -, -, hmem, -⟩; exact absurd h5 hmem
  · constructor
    · intro h; exact absurd h (by simp)
    · rintro ⟨-, -, -, -, -, -, hsig, -⟩; exact absurd hsig h6
  · constructor
    · intro h; exact absurd h (by simp)
    · rintro ⟨-, -, -, -, -, -, -, hbal, -⟩; omega
  · constructor
    · intro h
      refine ⟨by simpa using h1, by omega, by tauto, by omega, by omega, h5, by tauto, by omega, ?_⟩
      exact (Except.ok.inj h).symm
    · rintro ⟨-, -, -, -, -, -, -, -, hst⟩; exact congrArg Except.ok hst.symm

/-- `calculatePrize` never reads its slot argument (helper). -/
lemma calculatePrize_slot_irrelevant (s1 s2 : Int) (rng : Nat → ℚ) (k : Nat) :
    calculatePrize s1 rng k = calculatePrize s2 rng k := rfl

/-- The tier weights total 100 (helper). -/
lemma totalWeight_eq : totalWeight = 100 := by
  norm_num [totalWeight, PRIZE_DISTRIBUTION]

/-! ## Claim theorems -/

/-- C5: the commitment the issuer signs (`CryptoService.signVoucher`) and the
commitment the vault recomputes (`ClaimVault.redeem`) are the same function
of the five plaintext fields — both pack `(amountUnits, recipient, nonce,
expiresAt, issuer-instance address)` in that order at fixed widths — and
consequently recomputing the commitment from the persisted fields and
verifying the stored signature against the issuer identity succeeds. -/
theorem signVoucher_commitment_roundtrip :
    (∀ (a : Nat) (r : EthAddress) (n e : Nat) (v : EthAddress),
      messageHashTS a r n e v = voucherHashSol a r n e v) ∧
    (∀ (issuer : EthAddress) (a : Nat) (r : EthAddress) (n e : Nat) (v : EthAddress),
      ecrecover (ethSigned (voucherHashSol a r n e v)) (signVoucher issuer a r n e v)
        = issuer) := by
  constructor
  · intro a r n e v; rfl
  · intro issuer a r n e v
    simp [ecrecover, signVoucher, signMessage, messageHashTS, voucherHashSol]

/-- C7: `simulateDrop` is deterministic in its seed — a seeded draw is
independent of the ambient random source, so any two invocations with the
same seed return identical results (same path, final slot and amount). -/
theorem simulateDrop_deterministic (seed : String) (ambient1 ambient2 : Nat → ℚ) :
    simulateDrop (some seed) ambient1 = simulateDrop (some seed) ambient2 := rfl

/-- C8: `calculatePrize` does not read its `slot` argument: for every state
of the random source, the prize is the same whatever final position the board
descent produced. -/
theorem calculatePrize_ignores_slot (slot1 slot2 : Int) (rng : Nat → ℚ) (k : Nat) :
    calculatePrize slot1 rng k = calculatePrize slot2 rng k := rfl

/-- C6: a seeded draw can leave the claimed bounds: the seed string
`"zzzzzzzz"` hashes to a negative 32-bit value, JavaScript `%` keeps the
dividend's sign, so the generator emits negative samples and
`calculatePrize` returns `⌊rng*5⌋ + 1 = -2 < 1`; `validateDropResult`
(the code's own bounds check) rejects the outcome. -/
theorem simulateDrop_seeded_bounds_violation :
    (simulateDrop (some "zzzzzzzz") zeroStream).amountCents = -2 ∧
    ¬ validateDropResult (simulateDrop (some "zzzzzzzz") zeroStream) := by
  have hs8 : seededSample "zzzzzzzz" 8 = (-89559 : ℚ) / 233280 := by
    have h : hashIter "zzzzzzzz" 9 = -89559 := by decide
    simp [seededSample, h]
  have hs9 : seededSample "zzzzzzzz" 9 = (-129362 : ℚ) / 233280 := by
    have h : hashIter "zzzzzzzz" 10 = -129362 := by decide
    simp [seededSample, h]
  have hpick : ∀ w : ℚ, w ≤ 40 →
      pickTier PRIZE_DISTRIBUTION 0 w = some ⟨1, 5, 40⟩ := by
    intro w hw
    simp only [PRIZE_DISTRIBUTION, pickTier]
    rw [if_pos (by linarith)]
  have hamt : (simulateDrop (some "zzzzzzzz") zeroStream).amountCents = -2 := by
    have hred : (simulateDrop (some "zzzzzzzz") zeroStream).amountCents
        = calculatePrize ((descentAux (seededSample "zzzzzzzz") 0 BOARD_HEIGHT 3).1)
            (seededSample "zzzzzzzz") BOARD_HEIGHT := rfl
    rw [hred, calculatePrize_slot_irrelevant _ 0]
    simp only [calculatePrize, BOARD_HEIGHT, hs8, hs9]
    rw [hpick _ (by rw [totalWeight_eq]; norm_num)]
    have hfloor : ⌊(-129362 : ℚ) / 233280 * ((5 - 1 + 1 : Int) : ℚ)⌋ = -3 := by
      rw [Int.floor_eq_iff]
      constructor <;> norm_num
    show ⌊(-129362 : ℚ) / 233280 * ((5 - 1 + 1 : Int) : ℚ)⌋ + 1 = -2
    rw [hfloor]
    decide
  refine ⟨hamt, fun hv => ?_⟩
  have := hv.1
  omega

/-- C4: `consumeTicket` (and its in-memory twin) follows the specified
quota algorithm for every starting state: a missing or expired record is
initialized to `allowance - 1 = 2` remaining under a fresh 24h window with
success; a positive remaining count is decremented with success; a zero
remaining count fails and leaves the stored record unchanged; and the stored
remaining count never becomes negative. -/
theorem consumeTicket_follows_algorithm (now : Int) (st : TicketStore) :
    (quotaView now st = .stale →
      consumeTicket now st = (true, some ⟨2, now + 86400⟩) ∧
      consumeTicketFromMemory now st = (true, some ⟨2, now + 86400000⟩)) ∧
    (∀ r, st = some r → now ≤ r.expiry → 0 < r.tickets →
      consumeTicket now st = (true, some ⟨r.tickets - 1, r.expiry⟩) ∧
      consumeTicketFromMemory now st = (true, some ⟨r.tickets - 1, r.expiry⟩)) ∧
    (∀ r, st = some r → now ≤ r.expiry → r.tickets = 0 →
      consumeTicket now st = (false, st) ∧
      consumeTicketFromMemory now st = (false, st)) ∧
    ((∀ r, st = some r → 0 ≤ r.tickets) →
      (∀ r, (consumeTicket now st).2 = some r → 0 ≤ r.tickets) ∧
      (∀ r, (consumeTicketFromMemory now st).2 = some r → 0 ≤ r.tickets)) := by
  refine ⟨?_, ?_, ?_, ?_⟩
  · intro hv
    cases st with
    | none => exact ⟨rfl, rfl⟩
    | some r =>
      simp only [quotaView] at hv
      by_cases h : now > r.expiry
      · constructor <;> simp [consumeTicket, consumeTicketFromMemory, h]
      · rw [if_neg h] at hv; exact absurd hv (by simp)
  · rintro r rfl hexp hpos
    constructor <;>
      simp [consumeTicket, consumeTicketFromMemory, hpos, not_lt.mpr hexp]
  · rintro r rfl hexp hzero
    constructor <;>
      simp [consumeTicket, consumeTicketFromMemory, hzero, not_lt.mpr hexp]
  · intro hw
    constructor <;>
    · rintro ⟨rt, re⟩ hr
      show (0 : Int) ≤ rt
      cases st with
      | none =>
        simp [consumeTicket, consumeTicketFromMemory] at hr
        omega
      | some r0 =>
        obtain ⟨t0, e0⟩ := r0
        have h0 : (0 : Int) ≤ t0 := by simpa using hw ⟨t0, e0⟩ rfl
        by_cases h1 : now > e0 <;> by_cases h2 : t0 > 0 <;>
          simp [consumeTicket, consumeTicketFromMemory, h1, h2] at hr <;>
          omega

/-- C9: the process-local in-memory fallback implements the same consume
semantics as the Redis script: when Redis is unavailable the dispatch runs
the fallback, and from any two stores showing the same observable quota
state (absent/expired, or active with the same remaining count) the two
implementations return the same success flag and leave stores showing the
same remaining count. -/
theorem consumeTicket_fallback_equivalence :
    (∀ (now : Int) (st : TicketStore),
      consumeTicketDispatch false now st = consumeTicketFromMemory now st) ∧
    (∀ (now1 now2 : Int) (st1 st2 : TicketStore),
      quotaView now1 st1 = quotaView now2 st2 →
      (consumeTicket now1 st1).1 = (consumeTicketFromMemory now2 st2).1 ∧
      quotaView now1 (consumeTicket now1 st1).2
        = quotaView now2 (consumeTicketFromMemory now2 st2).2) := by
  constructor
  · intro now st; rfl
  · intro n1 n2 s1 s2 hv
    have fresh1 : quotaView n1 (some ⟨2, n1 + 86400⟩) = .active 2 := by
      simp only [quotaView]; rw [if_neg (by omega)]
    have fresh2 : quotaView n2 (some ⟨2, n2 + 86400000⟩) = .active 2 := by
      simp only [quotaView]; rw [if_neg (by omega)]
    cases s1 with
    | none =>
      cases s2 with
      | none =>
        exact ⟨rfl, by simp only [consumeTicket, consumeTicketFromMemory,
          fresh1, fresh2]⟩
      | some r2 =>
        simp only [quotaView] at hv
        by_cases h2 : n2 > r2.expiry
        · refine ⟨by simp [consumeTicket, consumeTicketFromMemory, h2], ?_⟩
          simp only [consumeTicket, consumeTicketFromMemory]
          rw [if_pos h2, fresh1, fresh2]
        · rw [if_neg h2] at hv; exact absurd hv (by simp)
    | some r1 =>
      cases s2 with
      | none =>
        simp only [quotaView] at hv
        by_cases h1 : n1 > r1.expiry
        · refine ⟨by simp [consumeTicket, consumeTicketFromMemory, h1], ?_⟩
          simp only [consumeTicket, consumeTicketFromMemory]
          rw [if_pos h1, fresh1, fresh2]
        · rw [if_neg h1] at hv; exact absurd hv (by simp)
      | some r2 =>
        simp only [quotaView] at hv
        by_cases h1 : n1 > r1.expiry <;> by_cases h2 : n2 > r2.expiry
        · refine ⟨by simp [consumeTicket, consumeTicketFromMemory, h1, h2], ?_⟩
          simp only [consumeTicket, consumeTicketFromMemory]
          rw [if_pos h1, if_pos h2, fresh1, fresh2]
        · rw [if_pos h1, if_neg h2] at hv; exact absurd hv (by simp)
        · rw [if_neg h1, if_pos h2] at hv; exact absurd hv (by simp)
        · rw [if_neg h1, if_neg h2] at hv
          have he : r1.tickets = r2.tickets := by simpa using hv
          by_cases hpos : r1.tickets > 0
          · refine ⟨by simp [consumeTicket, consumeTicketFromMemory, h1, h2,
              hpos, he ▸ hpos], ?_⟩
            simp only [consumeTicket, consumeTicketFromMemory]
            rw [if_neg h1, if_neg h2, if_pos hpos, if_pos (he ▸ hpos)]
            simp only [quotaView]
            rw [if_neg h1, if_neg h2, he]
          · refine ⟨by simp [consumeTicket, consumeTicketFromMemory, h1, h2,
              hpos, he ▸ hpos], ?_⟩
            simp only [consumeTicket, consumeTicketFromMemory]
            rw [if_neg h1, if_neg h2, if_neg hpos, if_neg (he ▸ hpos)]
            simp [quotaView, h1, h2, he]

/-- C10: on a validated drop the handler persists two separate drop-history
rows — the first before voucher creation with `voucherId: null`, the second
after voucher creation carrying the new voucher's id — both with the same
amount and path data, and inserts exactly one voucher row. -/
theorem handleDrop_two_history_rows (st : ServerState) (userId : Nat)
    (wallet : EthAddress) (r : DropResult) (nonce now issuer vaultAddr : Nat) :
    validateDropResult r →
    (handleDrop st userId wallet true r nonce now issuer vaultAddr).1.dropHistory
      = st.dropHistory ++
        [⟨st.nextHistoryId, userId, r.amountCents, r.path, none⟩,
          ⟨st.nextHistoryId + 1, userId, r.amountCents, r.path, some st.nextVoucherId⟩] ∧
    (handleDrop st userId wallet true r nonce now issuer vaultAddr).1.vouchers
      = st.vouchers ++
        [⟨st.nextVoucherId, wallet, r.amountCents, nonce, now + 30 * 24 * 60 * 60,
          signVoucher issuer r.amountCents.toNat wallet nonce
            (now + 30 * 24 * 60 * 60) vaultAddr⟩] ∧
    (handleDrop st userId wallet true r nonce now issuer vaultAddr).2
      = .ok (some st.nextVoucherId) := by
  intro hv
  have hpos : r.amountCents > 0 := by have := hv.1; omega
  simp [handleDrop, createDropHistory, createVoucher, hv, hpos]

/-- C2: `redeem` validates fail-fast in exactly the order expiry, recipient,
amount, prior consumption, signature (within the unpaused operating mode the
`whenNotPaused` modifier admits): for every input the first violated check of
this order determines the typed rejection. -/
theorem redeem_validation_order (st : VaultState) (now : Nat) (sender : EthAddress)
    (a : Nat) (r : EthAddress) (n e : Nat) (sig : EcdsaSig)
    (hp : st.paused = false) :
    (now > e → redeem st now sender a r n e sig = (st, some .VoucherExpired)) ∧
    (now ≤ e → r ≠ sender →
      redeem st now sender a r n e sig = (st, some .RecipientMismatch)) ∧
    (now ≤ e → r = sender → (a = 0 ∨ a > 100) →
      redeem st now sender a r n e sig = (st, some .InvalidAmount)) ∧
    (now ≤ e → r = sender → 1 ≤ a → a ≤ 100 →
      voucherHashSol a r n e st.vault ∈ st.redeemed →
      redeem st now sender a r n e sig = (st, some .AlreadyRedeemed)) ∧
    (now ≤ e → r = sender → 1 ≤ a → a ≤ 100 →
      voucherHashSol a r n e st.vault ∉ st.redeemed →
      ecrecover (ethSigned (voucherHashSol a r n e st.vault)) sig ≠ st.signer →
      redeem st now sender a r n e sig = (st, some .InvalidSignature)) := by
  refine ⟨?_, ?_, ?_, ?_, ?_⟩
  · intro h1
    have hb : redeemBody st now sender a r n e sig = .error .VoucherExpired := by
      unfold redeemBody
      rw [if_neg (by simp [hp]), if_pos h1]
    simp [redeem, hb]
  · intro h1 h2
    have hb : redeemBody st now sender a r n e sig = .error .RecipientMismatch := by
      unfold redeemBody
      rw [if_neg (by simp [hp]), if_neg (by omega), if_pos h2]
    simp [redeem, hb]
  · rintro h1 rfl h3
    have hb : redeemBody st now r a r n e sig = .error .InvalidAmount := by
      unfold redeemBody
      rw [if_neg (by simp [hp]), if_neg (by omega), if_neg (by simp), if_pos h3]
    simp [redeem, hb]
  · rintro h1 rfl ha1 ha2 hmem
    have hb : redeemBody st now r a r n e sig = .error .AlreadyRedeemed := by
      unfold redeemBody
      rw [if_neg (by simp [hp]), if_neg (by omega), if_neg (by simp),
        if_neg (by omega), if_pos hmem]
    simp [redeem, hb]
  · rintro h1 rfl ha1 ha2 hmem hsig
    have hb : redeemBody st now r a r n e sig = .error .InvalidSignature := by
      unfold redeemBody
      rw [if_neg (by simp [hp]), if_neg (by omega), if_neg (by simp),
        if_neg (by omega), if_neg hmem, if_pos hsig]
    simp [redeem, hb]

/-- C3: the consumed-flag write and the reserve-balance check form one atomic
unit under EVM revert semantics: every rejection (including
`InsufficientFunds`, raised exactly when the balance is short after all other
checks pass) leaves the state unchanged — in particular the flag is not left
set — while success sets the flag and moves exactly the voucher amount. -/
theorem redeem_flag_balance_atomic (st : VaultState) (now : Nat)
    (sender : EthAddress) (a : Nat) (r : EthAddress) (n e : Nat)
    (sig : EcdsaSig) :
    (∀ err, (redeem st now sender a r n e sig).2 = some err →
      (redeem st now sender a r n e sig).1 = st) ∧
    (st.paused = false → now ≤ e → r = sender → 1 ≤ a → a ≤ 100 →
      voucherHashSol a r n e st.vault ∉ st.redeemed →
      ecrecover (ethSigned (voucherHashSol a r n e st.vault)) sig = st.signer →
      st.balance < a * 10000 →
      redeem st now sender a r n e sig = (st, some .InsufficientFunds)) ∧
    ((redeem st now sender a r n e sig).2 = none →
      voucherHashSol a r n e st.vault
        ∈ (redeem st now sender a r n e sig).1.redeemed ∧
      (redeem st now sender a r n e sig).1.balance + a * 10000 = st.balance) := by
  refine ⟨?_, ?_, ?_⟩
  · intro err herr
    cases hb : redeemBody st now sender a r n e sig with
    | ok st2 => simp [redeem, hb] at herr
    | error e2 => simp [redeem, hb]
  · intro hp h1 hrs ha1 ha2 hmem hsig hbal
    subst hrs
    have hb : redeemBody st now r a r n e sig = .error .InsufficientFunds := by
      unfold redeemBody
      rw [if_neg (by simp [hp]), if_neg (by omega), if_neg (by simp),
        if_neg (by omega), if_neg hmem, if_neg (by simp [hsig]), if_pos hbal]
    simp [redeem, hb]
  · intro hok
    cases hb : redeemBody st now sender a r n e sig with
    | error e2 => simp [redeem, hb] at hok
    | ok st2 =>
      obtain ⟨-, -, -, -, -, -, -, hbal, hst⟩ :=
        (redeemBody_eq_ok st now sender a r n e sig st2).mp hb
      subst hst
      refine ⟨by simp [redeem, hb], ?_⟩
      simp only [redeem, hb]
      omega

/-- C1 (amended): a successful `redeem` marks the commitment consumed; no
subsequent `redeem` call with the same five fields can ever succeed again,
whatever the signature, caller or time; a subsequent call made by the
recipient while the voucher is unexpired is rejected specifically with
`AlreadyRedeemed`; and the consumed-flag set is monotone under every external
call of the contract, so `Redeemed` is terminal. -/
theorem redeem_exactly_once :
    (∀ (st : VaultState) (now : Nat) (sender : EthAddress) (a : Nat)
        (r : EthAddress) (n e : Nat) (sig : EcdsaSig) (st' : VaultState),
      redeem st now sender a r n e sig = (st', none) →
      voucherHashSol a r n e st'.vault ∈ st'.redeemed ∧
      (∀ (now2 : Nat) (sender2 : EthAddress) (sig2 : EcdsaSig),
        (redeem st' now2 sender2 a r n e sig2).2 ≠ none) ∧
      (∀ (now2 : Nat) (sig2 : EcdsaSig), now2 ≤ e →
        redeem st' now2 r a r n e sig2 = (st', some .AlreadyRedeemed))) ∧
    (∀ s1 s2, VaultStep s1 s2 → ∀ h ∈ s1.redeemed, h ∈ s2.redeemed) := by
  constructor
  · intro st now sender a r n e sig st' hsucc
    cases hb : redeemBody st now sender a r n e sig with
    | error e2 => simp [redeem, hb] at hsucc
    | ok st2 =>
      have hred : st2 = st' := by simpa [redeem, hb] using hsucc
      subst hred
      obtain ⟨hp, -, -, ha1, ha2, -, -, -, hst⟩ :=
        (redeemBody_eq_ok st now sender a r n e sig st2).mp hb
      subst hst
      refine ⟨List.mem_cons_self _ _, ?_, ?_⟩
      · intro now2 sender2 sig2 hnone
        cases hb2 : redeemBody { st with
            redeemed := voucherHashSol a r n e st.vault :: st.redeemed
            balance := st.balance - a * 10000
            totalRedeemed := st.totalRedeemed + a * 10000
            totalVouchers := st.totalVouchers + 1 } now2 sender2 a r n e sig2 with
        | error e3 => simp [redeem, hb2] at hnone
        | ok st3 =>
          obtain ⟨-, -, -, -, -, hmem2, -⟩ :=
            (redeemBody_eq_ok _ now2 sender2 a r n e sig2 st3).mp hb2
          exact hmem2 (List.mem_cons_self _ _)
      · intro now2 sig2 hle
        have hb2 : redeemBody { st with
            redeemed := voucherHashSol a r n e st.vault :: st.redeemed
            balance := st.balance - a * 10000
            totalRedeemed := st.totalRedeemed + a * 10000
            totalVouchers := st.totalVouchers + 1 } now2 r a r n e sig2
            = .error .AlreadyRedeemed := by
          unfold redeemBody
          rw [if_neg (by simp [hp]), if_neg (by omega), if_neg (by simp),
            if_neg (by omega), if_pos (List.mem_cons_self _ _)]
        simp [redeem, hb2]
  · intro s1 s2 hstep h hmem
    cases hstep with
    | redeem now sender a r n e sig =>
      cases hb : redeemBody s1 now sender a r n e sig with
      | error e2 => simpa [redeem, hb] using hmem
      | ok st2 =>
        obtain ⟨-, -, -, -, -, -, -, -, hst⟩ :=
          (redeemBody_eq_ok s1 now sender a r n e sig st2).mp hb
        subst hst
        simp only [redeem, hb]
        exact List.mem_cons_of_mem _ hmem
    | updateSigner ns =>
      unfold updateSigner; split_ifs <;> simpa using hmem
    | pause => simpa [pauseVault] using hmem
    | unpause => simpa [unpauseVault] using hmem
    | deposit amount =>
      unfold deposit; split_ifs <;> simpa using hmem
    | withdraw amount recipient =>
      unfold withdraw; split_ifs <;> simpa using hmem
    | emergencyWithdraw recipient =>
      unfold emergencyWithdraw; split_ifs <;> simpa using hmem

/-- A concrete unpaused, funded vault (signer `5`, deployed at address `1`). -/
def vaultCex : VaultState :=
  { signer := 5, paused := false, redeemed := [], balance := 1000000
    totalRedeemed := 0, totalVouchers := 0, vault := 1 }

/-- The issuer signature over the concrete voucher
`(amount 50, recipient 7, nonce 0, expiry 100)` for the vault at address 1. -/
def sigCex : EcdsaSig := signVoucher 5 50 7 0 100 1

/-- The vault state after the voucher of `sigCex` is redeemed once. -/
def vaultCexAfter : VaultState :=
  { signer := 5, paused := false, redeemed := [voucherHashSol 50 7 0 100 1]
    balance := 500000, totalRedeemed := 500000, totalVouchers := 1, vault := 1 }

/-- C1 counterexample to the claim as stated: after a successful redemption,
a second `redeem` call with the same five fields and the same signature made
after the expiry time is rejected with `VoucherExpired`, not
`AlreadyRedeemed` — the expiry check precedes the consumed-flag check. -/
theorem redeem_second_call_after_expiry :
    redeem vaultCex 50 7 50 7 0 100 sigCex = (vaultCexAfter, none) ∧
    redeem vaultCexAfter 101 7 50 7 0 100 sigCex
      = (vaultCexAfter, some .VoucherExpired) ∧
    VaultError.VoucherExpired ≠ VaultError.AlreadyRedeemed := by
  refine ⟨by decide, by decide, by decide⟩

/-- C1 witness: a concrete second redemption by the recipient within expiry
is rejected with `AlreadyRedeemed`. -/
theorem redeem_exactly_once_witness :
    redeem vaultCexAfter 60 7 50 7 0 100 sigCex
      = (vaultCexAfter, some .AlreadyRedeemed) := by
  have h := redeem_exactly_once.1 vaultCex 50 7 50 7 0 100 sigCex vaultCexAfter
    (by decide)
  exact h.2.2 60 sigCex (by decide)

/-- C2 witness: an expired voucher is rejected as `VoucherExpired`. -/
theorem redeem_validation_order_witness :
    redeem vaultCex 5 7 50 7 0 3 sigCex = (vaultCex, some .VoucherExpired) :=
  (redeem_validation_order vaultCex 5 7 50 7 0 3 sigCex rfl).1 (by decide)

/-- An underfunded concrete vault (balance below one voucher payout). -/
def vaultCexPoor : VaultState :=
  { signer := 5, paused := false, redeemed := [], balance := 100
    totalRedeemed := 0, totalVouchers := 0, vault := 1 }

/-- C3 witness: with every check passing but the balance short, the call is
rejected `InsufficientFunds` and the state — flag included — is unchanged. -/
theorem redeem_flag_balance_atomic_witness :
    redeem vaultCexPoor 50 7 50 7 0 100 sigCex
      = (vaultCexPoor, some .InsufficientFunds) :=
  (redeem_flag_balance_atomic vaultCexPoor 50 7 50 7 0 100 sigCex).2.1
    rfl (by decide) rfl (by decide) (by decide) (by decide) (by decide) (by decide)

/-- C4 witness: one remaining ticket in an active window is consumed. -/
theorem consumeTicket_follows_algorithm_witness :
    consumeTicket 0 (some ⟨1, 5⟩) = (true, some ⟨0, 5⟩) := by
  have h := (consumeTicket_follows_algorithm 0 (some ⟨1, 5⟩)).2.1 ⟨1, 5⟩ rfl
    (by decide) (by decide)
  simpa using h.1

/-- C9 witness: two stores showing the same active count behave alike. -/
theorem consumeTicket_fallback_equivalence_witness :
    (consumeTicket 0 (some ⟨2, 10⟩)).1
      = (consumeTicketFromMemory 0 (some ⟨2, 99⟩)).1 ∧
    quotaView 0 (consumeTicket 0 (some ⟨2, 10⟩)).2
      = quotaView 0 (consumeTicketFromMemory 0 (some ⟨2, 99⟩)).2 :=
  consumeTicket_fallback_equivalence.2 0 0 (some ⟨2, 10⟩) (some ⟨2, 99⟩) (by decide)

/-- A concrete valid drop result (straight-left path, slot 3, 50 cents). -/
def dropCex : DropResult := ⟨List.replicate 8 ⟨0, 0, .left⟩, 3, 50⟩

/-- C10 witness: from empty storage, a validated 50-cent drop leaves exactly
two history rows, the first with no voucher id, the second with the fresh
voucher's id. -/
theorem handleDrop_two_history_rows_witness :
    (handleDrop ⟨[], [], 0, 0⟩ 1 7 true dropCex 11 0 5 1).1.dropHistory
      = [⟨0, 1, 50, dropCex.path, none⟩, ⟨1, 1, 50, dropCex.path, some 0⟩] := by
  have h := handleDrop_two_history_rows ⟨[], [], 0, 0⟩ 1 7 dropCex 11 0 5 1
    (by decide)
  simpa using h.1
